import Mathlib

/-!
Verification development for the Muuid repository (`maya_uuid`, files
`__init__.py` and `config.py`): a utility that stores a UUID in a custom
attribute on Maya scene nodes and checks scene-wide consistency.

The Maya host is modelled as an explicit scene state: a list of nodes, each
carrying its full path, node type, reference flag, node-level lock flag and
its custom attributes (an association list from attribute name to a value
and a per-attribute write-lock flag).  The `maya.cmds` calls the module uses
are embedded as functions over this state; fallible calls return
`Except MayaErr`.  Python dynamic-typing details that matter to the code
(list-vs-string equality, truthiness of `None` and `""`, `len(None)`,
unbound-name lookup) are modelled explicitly.
-/

/-- Errors raised by the modelled host API or by the Python runtime. -/
inductive MayaErr where
  | nodeNotFound
  | attributeNotFound
  | attributeExists
  | nodeLocked
  | attrLocked
  | pyNameError
  | pyTypeError
deriving DecidableEq, Repr

/-- A custom attribute on a node: its string value (`none` when the attribute
was created but never set, which Maya reports as `None`) and its write-lock
flag. -/
structure MAttr where
  value : Option String
  locked : Bool
deriving DecidableEq, Repr

/-- A Maya scene node: full dag path, node type, whether it comes from an
external file reference, the node-level edit lock, and its custom
attributes keyed by attribute name. -/
structure Node where
  path : String
  nodeType : String
  referenced : Bool
  locked : Bool
  attrs : List (String × MAttr)
deriving DecidableEq, Repr

/-- The scene is the host node listing, in Maya listing order. -/
abbrev Scene := List Node

/-- Look a node up by full path (first match in listing order). -/
def findNode (s : Scene) (p : String) : Option Node :=
  s.find? (fun n => n.path == p)

/-- Look an attribute up on a node by name. -/
def getAttrEntry (n : Node) (a : String) : Option MAttr :=
  (n.attrs.find? (fun e => e.1 == a)).map (fun e => e.2)

/-- Overwrite an existing attribute entry (no effect when absent). -/
def setAttrEntry (n : Node) (a : String) (m : MAttr) : Node :=
  { n with attrs := n.attrs.map (fun e => if e.1 == a then (e.1, m) else e) }

/-- Append a fresh attribute entry. -/
def addAttrEntry (n : Node) (a : String) (m : MAttr) : Node :=
  { n with attrs := n.attrs ++ [(a, m)] }

/-- Delete an attribute entry. -/
def delAttrEntry (n : Node) (a : String) : Node :=
  { n with attrs := n.attrs.filter (fun e => e.1 ≠ a) }

/-- Apply `f` to the node(s) with path `p`. -/
def updateNode (s : Scene) (p : String) (f : Node → Node) : Scene :=
  s.map (fun n => if n.path == p then f n else n)

/-- A Python value as far as the code's dynamic comparisons go: either a
string or a list of strings (the return shape of `mc.ls`). -/
inductive PyVal where
  | pstr : String → PyVal
  | plist : List String → PyVal
deriving DecidableEq, Repr

/-- Python `==` across the two shapes: values of different types are never
equal, so a list compares unequal to every string. -/
def pyEq : PyVal → PyVal → Bool
  | .pstr a, .pstr b => a == b
  | .plist a, .plist b => a == b
  | _, _ => false

/-- Python truthiness test `not value` for a string-or-None value: `None`
and the empty string are falsy. -/
def pyFalsy : Option String → Bool
  | none => true
  | some v => v == ""

/-- Python `len` on a string-or-None value: `len(None)` raises `TypeError`. -/
def pyLen : Option String → Except MayaErr Nat
  | none => .error .pyTypeError
  | some v => .ok v.length

namespace mc

/-- Source `mc.ls(long=True, type=types)`: full paths of nodes of the given types,
in listing order. -/
def ls_long_type (s : Scene) (types : List String) : List String :=
  (s.filter (fun n => types.contains n.nodeType)).map Node.path

/-- Source `mc.ls(long=True)`: full paths of every node. -/
def ls_long (s : Scene) : List String :=
  s.map Node.path

/-- Source `mc.ls(ref, long=True)`: resolve a node reference (full path or short
name) to the full paths of the matching nodes.  A short name matches a node
whose path ends in `|name`. -/
def ls_resolve (s : Scene) (ref : String) : List String :=
  (s.filter (fun n =>
    n.path == ref || List.isSuffixOf ("|" ++ ref).data n.path.data)).map Node.path

/-- Source `mc.attributeQuery(a, node=node, exists=True)`. -/
def attributeQuery (s : Scene) (a node : String) : Except MayaErr Bool :=
  match findNode s node with
  | none => .error .nodeNotFound
  | some n => .ok (getAttrEntry n a).isSome

/-- Source `mc.referenceQuery(node, isNodeReferenced=True)`. -/
def referenceQuery (s : Scene) (node : String) : Except MayaErr Bool :=
  match findNode s node with
  | none => .error .nodeNotFound
  | some n => .ok n.referenced

/-- Source `mc.lockNode(node, query=True)[0]` (the host returns a one-element
list; the code takes its head). -/
def lockNode_query (s : Scene) (node : String) : Except MayaErr Bool :=
  match findNode s node with
  | none => .error .nodeNotFound
  | some n => .ok n.locked

/-- Source `mc.getAttr(node + "." + a)`: the stored value, `None` when never set;
fails when the node or the attribute does not exist. -/
def getAttr_value (s : Scene) (node a : String) : Except MayaErr (Option String) :=
  match findNode s node with
  | none => .error .nodeNotFound
  | some n =>
    match getAttrEntry n a with
    | none => .error .attributeNotFound
    | some m => .ok m.value

/-- Source `mc.getAttr(node + "." + a, lock=True)`: the attribute's write-lock flag. -/
def getAttr_lock (s : Scene) (node a : String) : Except MayaErr Bool :=
  match findNode s node with
  | none => .error .nodeNotFound
  | some n =>
    match getAttrEntry n a with
    | none => .error .attributeNotFound
    | some m => .ok m.locked

/-- Source `mc.setAttr(node + "." + a, v, type="string", lock=lk)`: writes the value
and sets the lock flag; rejected when the attribute is currently locked. -/
def setAttr_string (s : Scene) (node a v : String) (lk : Bool) : Except MayaErr Scene :=
  match findNode s node with
  | none => .error .nodeNotFound
  | some n =>
    match getAttrEntry n a with
    | none => .error .attributeNotFound
    | some m =>
      if m.locked then .error .attrLocked
      else .ok (updateNode s node (fun nd => setAttrEntry nd a ⟨some v, lk⟩))

/-- Source `mc.setAttr(node + "." + a, lock=lk)`: set only the lock flag (used to
unlock before deletion; unlocking a locked attribute is allowed). -/
def setAttr_lockFlag (s : Scene) (node a : String) (lk : Bool) : Except MayaErr Scene :=
  match findNode s node with
  | none => .error .nodeNotFound
  | some n =>
    match getAttrEntry n a with
    | none => .error .attributeNotFound
    | some m => .ok (updateNode s node (fun nd => setAttrEntry nd a ⟨m.value, lk⟩))

/-- Source `mc.addAttr(node, longName=a, dataType="string")`: creates the attribute
with no value and unlocked; rejected when an attribute of that name already
exists, or when the node itself is edit-locked. -/
def addAttr (s : Scene) (node a : String) : Except MayaErr Scene :=
  match findNode s node with
  | none => .error .nodeNotFound
  | some n =>
    if (getAttrEntry n a).isSome then .error .attributeExists
    else if n.locked then .error .nodeLocked
    else .ok (updateNode s node (fun nd => addAttrEntry nd a ⟨none, false⟩))

/-- Source `mc.deleteAttr(node, attribute=a)`. -/
def deleteAttr (s : Scene) (node a : String) : Except MayaErr Scene :=
  match findNode s node with
  | none => .error .nodeNotFound
  | some n =>
    match getAttrEntry n a with
    | none => .error .attributeNotFound
    | some _ => .ok (updateNode s node (fun nd => delAttrEntry nd a))

end mc

namespace config

/-- Source `config.UUID_ATTR_NAME`. -/
def UUID_ATTR_NAME : String := "fd_node_uuid"

/-- Source `config.TRACKABLE_NODE_TYPES`. -/
def TRACKABLE_NODE_TYPES : List String := ["transform", "mesh", "nurbsSurface"]

/-- Source `config.UNWANTED_NODES`. -/
def UNWANTED_NODES : List String := []

/-- Source `config.DEFAULT_NODES`. -/
def DEFAULT_NODES : List String :=
  [ "|persp", "|persp|perspShape", "|top", "|top|topShape", "|front",
    "|front|frontShape", "|side", "|side|sideShape", "|defaultLightSet",
    "|defaultObjectSet", "|defaultLayer", "|layerManager", "|dof1",
    "|dynController1", "|globalCacheControl", "|hardwareRenderGlobals",
    "|hardwareRenderingGlobals", "|defaultHardwareRenderGlobals",
    "|ikSystem", "|lambert1", "|lightLinker1", "|particleCloud1",
    "|characterPartition", "|renderPartition", "|defaultRenderLayer",
    "|sequenceManager1", "|shaderGlow1", "|strokeGlobals", "|time1",
    "|defaultViewColorManager" ]

end config

/-- Module-level `_uuid_attr_name = config.UUID_ATTR_NAME`. -/
def _uuid_attr_name : String := config.UUID_ATTR_NAME

/-- Source `uuid_nodes()`: every node of a trackable type whose full path is in
neither `DEFAULT_NODES` nor `UNWANTED_NODES` (the source binds
`unwanted_nodes = config.DEFAULT_NODES + config.UNWANTED_NODES` first and
skips nodes contained in it). -/
def uuid_nodes (s : Scene) : List String :=
  (mc.ls_long_type s config.TRACKABLE_NODE_TYPES).filter
    (fun node => !((config.DEFAULT_NODES ++ config.UNWANTED_NODES).contains node))

/-- Source `has_uuid(node)`. -/
def has_uuid (s : Scene) (node : String) : Except MayaErr Bool :=
  mc.attributeQuery s _uuid_attr_name node

/-- Source `get_uuid(node)`. -/
def get_uuid (s : Scene) (node : String) : Except MayaErr (Option String) :=
  mc.getAttr_value s node _uuid_attr_name

/-- Source `set_uuid(node)`.  The value written comes from `uuid.uuid4().hex`
(Python standard library, outside this repository); the draw is passed in
as `freshHex`. -/
def set_uuid (s : Scene) (node : String) (freshHex : String) : Except MayaErr Scene :=
  match mc.addAttr s node _uuid_attr_name with
  | .error e => .error e
  | .ok s1 => mc.setAttr_string s1 node _uuid_attr_name freshHex true

/-- The loop of `set_all_uuids()`.  The Python iterates the lazy generator
`uuid_missing_nodes()`: the node listing is snapshotted when iteration
starts, while the per-node `referenceQuery` and `has_uuid` checks run
against the live scene as it is being mutated; the loop here reflects that
interleaving.  `gen i` models the i-th draw of `uuid.uuid4().hex`. -/
def set_all_uuids_go (gen : Nat → String) : Nat → List String → Scene → Except MayaErr Scene
  | _, [], s => .ok s
  | i, node :: rest, s =>
    match mc.referenceQuery s node with
    | .error e => .error e
    | .ok isRef =>
      if isRef then set_all_uuids_go gen i rest s
      else
        match has_uuid s node with
        | .error e => .error e
        | .ok hasU =>
          if hasU then set_all_uuids_go gen i rest s
          else
            match set_uuid s node (gen i) with
            | .error e => .error e
            | .ok s2 => set_all_uuids_go gen (i + 1) rest s2

/-- Source `set_all_uuids()`: tag every node yielded by `uuid_missing_nodes()`. -/
def set_all_uuids (s : Scene) (gen : Nat → String) : Except MayaErr Scene :=
  set_all_uuids_go gen 0 (uuid_nodes s) s

/-- Source `uuid_missing_nodes()` evaluated eagerly on a fixed scene: trackable
nodes that are not referenced and do not yet carry the attribute. -/
def uuid_missing_nodes (s : Scene) : List String → Except MayaErr (List String)
  | [] => .ok []
  | node :: rest =>
    match mc.referenceQuery s node with
    | .error e => .error e
    | .ok isRef =>
      if isRef then uuid_missing_nodes s rest
      else
        match has_uuid s node with
        | .error e => .error e
        | .ok hasU =>
          if hasU then uuid_missing_nodes s rest
          else
            match uuid_missing_nodes s rest with
            | .error e => .error e
            | .ok l => .ok (node :: l)

/-- Source `could_have_uuid(node)`.  The Python computes
`full_path_node = mc.ls(node, long=True)`, which is a LIST of paths, and
then evaluates `full_path_node in uuid_nodes()`, which tests that list for
equality (`==`) against each string the generator yields; a Python list
never compares equal to a string, so the comparison is modelled through
`PyVal`. -/
def could_have_uuid (s : Scene) (node : String) : Bool :=
  let full_path_node : PyVal := PyVal.plist (mc.ls_resolve s node)
  (uuid_nodes s).any (fun p => pyEq full_path_node (PyVal.pstr p))

/-- Python `dict` insertion `d[k] = v`: overwrite in place when the key is
present, append otherwise (insertion order preserved).  The key is the
value returned by `get_uuid`, which can be `None`. -/
def pyDictInsert (d : List (Option String × String)) (k : Option String) (v : String) :
    List (Option String × String) :=
  if d.any (fun e => e.1 == k) then d.map (fun e => if e.1 == k then (k, v) else e)
  else d ++ [(k, v)]

/-- The loop of `uuid_map()`. -/
def uuid_map_go (s : Scene) : List String → List (Option String × String) →
    Except MayaErr (List (Option String × String))
  | [], acc => .ok acc
  | node :: rest, acc =>
    match get_uuid s node with
    | .error e => .error e
    | .ok v => uuid_map_go s rest (pyDictInsert acc v node)

/-- Source `uuid_map()`: dict from uuid value to full path over all trackable
nodes; `get_uuid` is called on every trackable node unconditionally. -/
def uuid_map (s : Scene) : Except MayaErr (List (Option String × String)) :=
  uuid_map_go s (uuid_nodes s) []

/-- The loop of `get_node(uuid_value)`: the Python falls through and
returns `None` when no node matches. -/
def get_node_go (s : Scene) (uuid_value : String) : List String → Except MayaErr (Option String)
  | [] => .ok none
  | node :: rest =>
    match get_uuid s node with
    | .error e => .error e
    | .ok v =>
      if v == some uuid_value then .ok (some node)
      else get_node_go s uuid_value rest

/-- Source `get_node(uuid_value)`: first trackable node, in listing order, whose
stored uuid equals the given value. -/
def get_node (s : Scene) (uuid_value : String) : Except MayaErr (Option String) :=
  get_node_go s uuid_value (uuid_nodes s)

/-- The loop of `check_safety()`: accumulates the safe flag and the warning
log, scanning every node (no short-circuit). -/
def check_safety_go (s : Scene) : List String → Bool → List String →
    Except MayaErr (Bool × List String)
  | [], safe, ws => .ok (safe, ws)
  | node :: rest, safe, ws =>
    match mc.lockNode_query s node with
    | .error e => .error e
    | .ok lk =>
      let safe1 := if lk then false else safe
      let ws1 := if lk then
          ws ++ ["Node locked, set a uuid on it will be impossible : " ++ node]
        else ws
      match mc.referenceQuery s node with
      | .error e => .error e
      | .ok isRef =>
        let safe2 := if isRef then false else safe1
        let ws2 := if isRef then
            ws1 ++ ["Node in reference. Set an uuid on it will not make it " ++
              "unique. You should disable reference before or set uuids " ++
              "at the source of the referenced scene : " ++ node]
          else ws1
        check_safety_go s rest safe2 ws2

/-- Source `check_safety()`: result boolean plus the warnings emitted. -/
def check_safety (s : Scene) : Except MayaErr (Bool × List String) :=
  check_safety_go s (uuid_nodes s) true []

/-- The loop of `check_uuids()`: per node, in order, check attribute
existence, then its lock flag, then value truthiness, then value length;
the first failed check warns and returns `False` immediately. -/
def check_uuids_go (s : Scene) : List String → Except MayaErr (Bool × List String)
  | [] => .ok (true, [])
  | node :: rest =>
    match has_uuid s node with
    | .error e => .error e
    | .ok hasU =>
      if !hasU then .ok (false, ["This node is supposed to have a uuid : " ++ node])
      else
        match mc.getAttr_lock s node _uuid_attr_name with
        | .error e => .error e
        | .ok lk =>
          if !lk then .ok (false, ["This node has a unlocked uuid : " ++ node])
          else
            match get_uuid s node with
            | .error e => .error e
            | .ok v =>
              if pyFalsy v then
                .ok (false, ["This node seems to have an invalid uuid value : " ++ node])
              else
                match get_uuid s node with
                | .error e => .error e
                | .ok v2 =>
                  match pyLen v2 with
                  | .error e => .error e
                  | .ok len =>
                    if len ≠ 32 then
                      .ok (false, ["This node seems to have an invalid uuid value : " ++ node])
                    else check_uuids_go s rest

/-- Source `check_uuids()`: result boolean plus the warnings emitted. -/
def check_uuids (s : Scene) : Except MayaErr (Bool × List String) :=
  check_uuids_go s (uuid_nodes s)

/-- A new node handed to the creation callback: Maya dag nodes resolve
their full path through `MFnDagNode.fullPathName()`, other dependency
nodes through `"|" + MFnDependencyNode.name()` (the `elif` in the source;
dag nodes take the first branch). -/
inductive MObject where
  | dagNode : String → MObject
  | dependencyNode : String → MObject
deriving DecidableEq, Repr

/-- The handler `set_uuid_on_mobject_callback` that
`register_uuid_creation_callback()` subscribes to the host node-added
stream: resolve the new node's full path, then tag it when
`could_have_uuid` holds.  `freshHex` models the `uuid.uuid4().hex` draw
`set_uuid` would consume. -/
def set_uuid_on_mobject_callback (s : Scene) (freshHex : String) (mobject : MObject) :
    Except MayaErr Scene :=
  let nodeFullPath : String :=
    match mobject with
    | .dagNode p => p
    | .dependencyNode n => "|" ++ n
  if could_have_uuid s nodeFullPath then set_uuid s nodeFullPath freshHex
  else .ok s

/-- Python line 89 of `__init__.py` reads the name `uuid_attr_name`, which
is unbound in the module (the constant is spelled `_uuid_attr_name`), so
evaluating it raises `NameError` before any host call runs. -/
def pyLookupUuidAttrName : Except MayaErr String :=
  .error .pyNameError

/-- Source `_remove_uuid(node)`: translated step by step from the source; the very
first step is the unbound-name lookup used as `attributeQuery`'s first
argument. -/
def _remove_uuid (s : Scene) (node : String) : Except MayaErr (Scene × List String) :=
  match pyLookupUuidAttrName with
  | .error e => .error e
  | .ok attrName =>
    match mc.attributeQuery s attrName node with
    | .error e => .error e
    | .ok ex =>
      if ex then
        match mc.referenceQuery s node with
        | .error e => .error e
        | .ok isRef =>
          let ws := if isRef then
              ["This node has an uuid on it but is in reference, can not " ++
                "remove its uuid : " ++ node]
            else []
          match mc.getAttr_lock s node _uuid_attr_name with
          | .error e => .error e
          | .ok lk =>
            match (if lk then mc.setAttr_lockFlag s node _uuid_attr_name false
                   else .ok s) with
            | .error e => .error e
            | .ok s1 =>
              match mc.deleteAttr s1 node _uuid_attr_name with
              | .error e => .error e
              | .ok s2 => .ok (s2, ws)
      else .ok (s, [])

/-- Source `_remove_all_uuids()`: applies `_remove_uuid` to every node of the
scene (not only trackable ones), after a prominent warning. -/
def _remove_all_uuids_go (warnings : List String) : List String → Scene →
    Except MayaErr (Scene × List String)
  | [], s => .ok (s, warnings)
  | node :: rest, s =>
    match _remove_uuid s node with
    | .error e => .error e
    | .ok (s1, ws) => _remove_all_uuids_go (warnings ++ ws) rest s1

/-- Source `_remove_all_uuids()` entry point. -/
def _remove_all_uuids (s : Scene) : Except MayaErr (Scene × List String) :=
  _remove_all_uuids_go
    ["You are using a risky method, if you do not know what you are doing, please call RnD!"]
    (mc.ls_long s) s

/-! ## Derived observations on the scene, used to state the claims -/

/-- The identity attribute carried by the node at path `p`, if any. -/
def nodeUuidAttr (s : Scene) (p : String) : Option MAttr :=
  (findNode s p).bind (fun n => getAttrEntry n _uuid_attr_name)

/-- The identity value stored at path `p`, if any. -/
def nodeUuidValue (s : Scene) (p : String) : Option String :=
  (nodeUuidAttr s p).bind MAttr.value

/-- Whether the node at `p` carries the identity attribute. -/
def hasAttrB (s : Scene) (p : String) : Bool :=
  (nodeUuidAttr s p).isSome

/-- The consistency condition `check_uuids` tests per node, as the claim
words it: the identity attribute exists, is write-locked, its value is
non-empty (neither unset nor the empty string) and is exactly 32
characters long. -/
def nodeUuidOk (s : Scene) (p : String) : Bool :=
  match nodeUuidAttr s p with
  | none => false
  | some m => m.locked && !(pyFalsy m.value) && ((m.value.getD "").length == 32)

/-- The warning `check_uuids` emits for the first offending node, chosen by
the first failed check. -/
def uuidWarning (s : Scene) (p : String) : String :=
  match nodeUuidAttr s p with
  | none => "This node is supposed to have a uuid : " ++ p
  | some m =>
    if !m.locked then "This node has a unlocked uuid : " ++ p
    else "This node seems to have an invalid uuid value : " ++ p

/-- The unsafe condition `check_safety` tests per node: edit-locked at the
node level, or originating from an external file reference. -/
def nodeUnsafeB (s : Scene) (p : String) : Bool :=
  match findNode s p with
  | none => false
  | some n => n.locked || n.referenced

/-- The warnings `check_safety` emits for one node: one per offence. -/
def safetyWarnings (s : Scene) (p : String) : List String :=
  match findNode s p with
  | none => []
  | some n =>
    (if n.locked then ["Node locked, set a uuid on it will be impossible : " ++ p]
     else []) ++
    (if n.referenced then
      ["Node in reference. Set an uuid on it will not make it " ++
        "unique. You should disable reference before or set uuids " ++
        "at the source of the referenced scene : " ++ p]
     else [])

/-- Concatenation of per-element lists, in order. -/
def listFlat (f : α → List β) : List α → List β
  | [] => []
  | a :: l => f a ++ listFlat f l

/-- A 32-character lowercase hexadecimal string — the canonical textual
form `uuid.uuid4().hex` (Python standard library, outside this repository)
produces for a random 128-bit identifier. -/
def isUuidHex32 (v : String) : Bool :=
  v.length == 32 && v.data.all (fun c => "0123456789abcdef".data.contains c)

/-- The net effect of a successful `set_uuid` on the tagged node: the
attribute is created and then set to the locked fresh value. -/
def tagNode (v : String) (n : Node) : Node :=
  setAttrEntry (addAttrEntry n _uuid_attr_name ⟨none, false⟩) _uuid_attr_name ⟨some v, true⟩

/-! ## Concrete scenes used as witnesses and failing inputs -/

/-- A scene holding one untagged trackable node. -/
def demoUntagged : Scene :=
  [⟨"|group1", "transform", false, false, []⟩]

/-- A fixed well-formed identity value. -/
def demoHex : String := "0123456789abcdef0123456789abcdef"

/-- A scene holding one tagged trackable node (locked, 32-hex value). -/
def demoTagged : Scene :=
  [⟨"|group1", "transform", false, false, [(_uuid_attr_name, ⟨some demoHex, true⟩)]⟩]

/-- A scene holding two untagged trackable nodes. -/
def demoTwo : Scene :=
  [⟨"|group1", "transform", false, false, []⟩,
   ⟨"|group2", "transform", false, false, []⟩]

/-- An injective stream of fresh values (distinct lengths). -/
def demoGen : Nat → String := fun i => String.mk (List.replicate (i + 1) 'a')

/-- The scene `demoTwo` after `set_all_uuids` with the `demoGen` draws. -/
def demoTwoTagged : Scene :=
  [⟨"|group1", "transform", false, false, [(_uuid_attr_name, ⟨some "a", true⟩)]⟩,
   ⟨"|group2", "transform", false, false, [(_uuid_attr_name, ⟨some "aa", true⟩)]⟩]

/-! ## Helper lemmas about the scene model -/

theorem mem_uuid_nodes_exists_node {s : Scene} {p : String} (h : p ∈ uuid_nodes s) :
    ∃ n, n ∈ s ∧ n.path = p := by
  unfold uuid_nodes at h
  simp only [List.mem_filter] at h
  obtain ⟨h1, _⟩ := h
  unfold mc.ls_long_type at h1
  simp only [List.mem_map, List.mem_filter] at h1
  obtain ⟨n, ⟨hn, _⟩, rfl⟩ := h1
  exact ⟨n, hn, rfl⟩

theorem findNode_isSome_of_mem_uuid_nodes {s : Scene} {p : String}
    (h : p ∈ uuid_nodes s) : (findNode s p).isSome := by
  obtain ⟨n, hn, hp⟩ := mem_uuid_nodes_exists_node h
  exact List.find?_isSome.mpr ⟨n, hn, by simp [hp]⟩

theorem findNode_updateNode_eq (s : Scene) (p : String) (f : Node → Node)
    (hf : ∀ n, (f n).path = n.path) :
    findNode (updateNode s p f) p = (findNode s p).map f := by
  induction s with
  | nil => rfl
  | cons n rest ih =>
    simp only [updateNode, List.map_cons, findNode] at *
    by_cases hn : n.path = p
    · rw [if_pos (by simp [hn])]
      rw [List.find?_cons_of_pos _ (by simp [hf n, hn]),
          List.find?_cons_of_pos _ (by simp [hn])]
      rfl
    · rw [if_neg (by simp [hn])]
      rw [List.find?_cons_of_neg _ (by simp [hn]),
          List.find?_cons_of_neg _ (by simp [hn])]
      exact ih

theorem findNode_updateNode_ne (s : Scene) (p q : String) (f : Node → Node)
    (hf : ∀ n, (f n).path = n.path) (hq : q ≠ p) :
    findNode (updateNode s p f) q = findNode s q := by
  induction s with
  | nil => rfl
  | cons n rest ih =>
    simp only [updateNode, List.map_cons, findNode] at *
    by_cases hn : n.path = p
    · have h2 : ((f n).path == q) = false := by
        rw [hf n, hn]; exact beq_eq_false_iff_ne.mpr (Ne.symm hq)
      have h3 : (n.path == q) = false := by
        rw [hn]; exact beq_eq_false_iff_ne.mpr (Ne.symm hq)
      rw [if_pos (by simp [hn])]
      rw [List.find?_cons_of_neg _ (by simp [h2]),
          List.find?_cons_of_neg _ (by simp [h3])]
      exact ih
    · rw [if_neg (by simp [hn])]
      by_cases hnq : n.path = q
      · rw [List.find?_cons_of_pos _ (by simp [hnq]),
            List.find?_cons_of_pos _ (by simp [hnq])]
      · rw [List.find?_cons_of_neg _ (by simp [hnq]),
            List.find?_cons_of_neg _ (by simp [hnq])]
        exact ih

theorem assocFind_map_overwrite (l : List (String × MAttr)) (a : String) (m : MAttr) :
    (l.map (fun e => if e.1 == a then (e.1, m) else e)).find? (fun e => e.1 == a) =
      (l.find? (fun e => e.1 == a)).map (fun e => (e.1, m)) := by
  induction l with
  | nil => rfl
  | cons e l ih =>
    by_cases he : e.1 = a
    · have h1 : (if e.1 == a then (e.1, m) else e) = (e.1, m) := by simp [he]
      simp only [List.map_cons, h1]
      rw [List.find?_cons_of_pos _ (by simp [he]), List.find?_cons_of_pos _ (by simp [he])]
      rfl
    · have h1 : (if e.1 == a then (e.1, m) else e) = e := by simp [he]
      simp only [List.map_cons, h1]
      rw [List.find?_cons_of_neg _ (by simp [he]), List.find?_cons_of_neg _ (by simp [he])]
      exact ih

theorem assocFind_append_single (l : List (String × MAttr)) (a : String) (m : MAttr)
    (h : l.find? (fun e => e.1 == a) = none) :
    (l ++ [(a, m)]).find? (fun e => e.1 == a) = some (a, m) := by
  induction l with
  | nil => simp
  | cons e l ih =>
    have he : (e.1 == a) = false := by
      cases hb : (e.1 == a)
      · rfl
      · simp [hb] at h
    have h' : l.find? (fun e => e.1 == a) = none := by
      simpa [he] using h
    simpa [he] using ih h'

theorem getAttrEntry_setAttrEntry_self (n : Node) (a : String) (m : MAttr) :
    getAttrEntry (setAttrEntry n a m) a = (getAttrEntry n a).map (fun _ => m) := by
  show ((n.attrs.map (fun e => if e.1 == a then (e.1, m) else e)).find?
      (fun e => e.1 == a)).map (fun e => e.2) =
    ((n.attrs.find? (fun e => e.1 == a)).map (fun e => e.2)).map (fun _ => m)
  rw [assocFind_map_overwrite]
  cases n.attrs.find? (fun e => e.1 == a) <;> rfl

theorem getAttrEntry_addAttrEntry_self (n : Node) (a : String) (m : MAttr)
    (h : getAttrEntry n a = none) :
    getAttrEntry (addAttrEntry n a m) a = some m := by
  have h0 : n.attrs.find? (fun e => e.1 == a) = none := by
    unfold getAttrEntry at h
    exact Option.map_eq_none'.mp h
  show ((n.attrs ++ [(a, m)]).find? (fun e => e.1 == a)).map (fun e => e.2) = some m
  rw [assocFind_append_single _ _ _ h0]
  rfl

theorem getAttrEntry_tagNode (n : Node) (v : String)
    (h : getAttrEntry n _uuid_attr_name = none) :
    getAttrEntry (tagNode v n) _uuid_attr_name = some ⟨some v, true⟩ := by
  unfold tagNode
  rw [getAttrEntry_setAttrEntry_self, getAttrEntry_addAttrEntry_self n _ _ h]
  rfl

theorem tagNode_path (v : String) (n : Node) : (tagNode v n).path = n.path := rfl

theorem tagNode_referenced (v : String) (n : Node) :
    (tagNode v n).referenced = n.referenced := rfl

theorem tagNode_locked (v : String) (n : Node) : (tagNode v n).locked = n.locked := rfl

theorem addAttrEntry_path (n : Node) (a : String) (m : MAttr) :
    (addAttrEntry n a m).path = n.path := rfl

theorem setAttrEntry_path (n : Node) (a : String) (m : MAttr) :
    (setAttrEntry n a m).path = n.path := rfl

theorem set_uuid_ok_elim {s : Scene} {node v : String} {s' : Scene}
    (h : set_uuid s node v = .ok s') :
    ∃ n, findNode s node = some n ∧ getAttrEntry n _uuid_attr_name = none ∧
      n.locked = false ∧
      s' = updateNode (updateNode s node
          (fun nd => addAttrEntry nd _uuid_attr_name ⟨none, false⟩)) node
        (fun nd => setAttrEntry nd _uuid_attr_name ⟨some v, true⟩) := by
  unfold set_uuid at h
  split at h
  next e haa => cases h
  next s1 haa =>
    unfold mc.addAttr at haa
    split at haa
    next hfn => cases haa
    next n hfn =>
      split at haa
      next hex => cases haa
      next hex =>
        split at haa
        next hlk => cases haa
        next hlk =>
          injection haa with heq1
          subst heq1
          have hnone : getAttrEntry n _uuid_attr_name = none := by
            simpa using hex
          have hfn1 : findNode (updateNode s node
              (fun nd => addAttrEntry nd _uuid_attr_name ⟨none, false⟩)) node =
              some (addAttrEntry n _uuid_attr_name ⟨none, false⟩) := by
            rw [findNode_updateNode_eq s node
              (fun nd => addAttrEntry nd _uuid_attr_name ⟨none, false⟩)
              (fun nd => rfl), hfn]
            rfl
          unfold mc.setAttr_string at h
          split at h
          next hfn2 => rw [hfn1] at hfn2; cases hfn2
          next n1 hfn2 =>
            rw [hfn1] at hfn2
            injection hfn2 with heq2
            subst heq2
            split at h
            next hga => rw [getAttrEntry_addAttrEntry_self n _ _ hnone] at hga; cases hga
            next m1 hga =>
              rw [getAttrEntry_addAttrEntry_self n _ _ hnone] at hga
              injection hga with heq3
              subst heq3
              split at h
              next hml => cases hml
              next hml =>
                injection h with heq4
                exact ⟨n, hfn, hnone, by simpa using hlk, heq4.symm⟩

theorem set_uuid_findNode {s : Scene} {node v : String} {s' : Scene}
    (h : set_uuid s node v = .ok s') :
    (∀ q, q ≠ node → findNode s' q = findNode s q) ∧
    ∃ n, findNode s node = some n ∧ getAttrEntry n _uuid_attr_name = none ∧
      findNode s' node = some (tagNode v n) := by
  obtain ⟨n, hfn, hnone, hlk, hs'⟩ := set_uuid_ok_elim h
  subst hs'
  constructor
  · intro q hq
    rw [findNode_updateNode_ne
        (updateNode s node (fun nd => addAttrEntry nd _uuid_attr_name ⟨none, false⟩))
        node q (fun nd => setAttrEntry nd _uuid_attr_name ⟨some v, true⟩)
        (fun nd => rfl) hq,
      findNode_updateNode_ne s node q
        (fun nd => addAttrEntry nd _uuid_attr_name ⟨none, false⟩) (fun nd => rfl) hq]
  · refine ⟨n, hfn, hnone, ?_⟩
    rw [findNode_updateNode_eq
        (updateNode s node (fun nd => addAttrEntry nd _uuid_attr_name ⟨none, false⟩))
        node (fun nd => setAttrEntry nd _uuid_attr_name ⟨some v, true⟩) (fun nd => rfl),
      findNode_updateNode_eq s node
        (fun nd => addAttrEntry nd _uuid_attr_name ⟨none, false⟩) (fun nd => rfl),
      hfn]
    rfl

theorem set_uuid_nodeUuidAttr {s : Scene} {node v : String} {s' : Scene}
    (h : set_uuid s node v = .ok s') :
    nodeUuidAttr s node = none ∧ nodeUuidAttr s' node = some ⟨some v, true⟩ ∧
    ∀ q, q ≠ node → nodeUuidAttr s' q = nodeUuidAttr s q := by
  obtain ⟨hne, n, hfn, hnone, hfn'⟩ := set_uuid_findNode h
  refine ⟨?_, ?_, ?_⟩
  · simp [nodeUuidAttr, hfn, hnone]
  · simp [nodeUuidAttr, hfn', getAttrEntry_tagNode n v hnone]
  · intro q hq
    simp [nodeUuidAttr, hne q hq]

theorem set_uuid_preserves_fields {s : Scene} {node v : String} {s' : Scene}
    (h : set_uuid s node v = .ok s') (q : String) :
    (findNode s' q).map Node.referenced = (findNode s q).map Node.referenced ∧
    (findNode s' q).isSome = (findNode s q).isSome := by
  obtain ⟨hne, n, hfn, hnone, hfn'⟩ := set_uuid_findNode h
  by_cases hq : q = node
  · subst hq
    rw [hfn', hfn]
    exact ⟨rfl, rfl⟩
  · rw [hne q hq]
    exact ⟨rfl, rfl⟩

theorem nodeUuidAttr_eq_some_elim {s : Scene} {p : String} {m : MAttr}
    (h : nodeUuidAttr s p = some m) :
    ∃ n, findNode s p = some n ∧ getAttrEntry n _uuid_attr_name = some m := by
  unfold nodeUuidAttr at h
  cases hfn : findNode s p with
  | none => rw [hfn] at h; cases h
  | some n =>
    rw [hfn] at h
    exact ⟨n, rfl, h⟩

theorem check_uuids_go_cons_good {s : Scene} {p : String} (rest : List String)
    (h : nodeUuidOk s p = true) :
    check_uuids_go s (p :: rest) = check_uuids_go s rest := by
  cases hma : nodeUuidAttr s p with
  | none => rw [nodeUuidOk, hma] at h; cases h
  | some m =>
    rw [nodeUuidOk, hma] at h
    obtain ⟨n, hfn, hga⟩ := nodeUuidAttr_eq_some_elim hma
    simp only [Bool.and_eq_true] at h
    obtain ⟨⟨hlk, hnf⟩, hlen⟩ := h
    cases hv : m.value with
    | none =>
      rw [hv] at hnf
      simp [pyFalsy] at hnf
    | some str =>
      rw [hv] at hnf hlen
      have hlen' : str.length = 32 := by simpa using hlen
      have hne : (str == "") = false := by simpa [pyFalsy] using hnf
      simp [check_uuids_go, has_uuid, mc.attributeQuery, hfn, hga,
            mc.getAttr_lock, get_uuid, mc.getAttr_value, hlk, hv, pyFalsy, hne,
            pyLen, hlen']

theorem check_uuids_go_cons_bad {s : Scene} {p : String} (rest : List String)
    (hn : (findNode s p).isSome) (h : nodeUuidOk s p = false) :
    check_uuids_go s (p :: rest) = .ok (false, [uuidWarning s p]) := by
  obtain ⟨n, hfn⟩ := Option.isSome_iff_exists.mp hn
  cases hma : getAttrEntry n _uuid_attr_name with
  | none =>
    have hwu : uuidWarning s p = "This node is supposed to have a uuid : " ++ p := by
      simp [uuidWarning, nodeUuidAttr, hfn, hma]
    simp [check_uuids_go, has_uuid, mc.attributeQuery, hfn, hma, hwu]
  | some m =>
    have hma' : nodeUuidAttr s p = some m := by simp [nodeUuidAttr, hfn, hma]
    have h' : (m.locked && !pyFalsy m.value && ((m.value.getD "").length == 32))
        = false := by
      rw [nodeUuidOk, hma'] at h
      exact h
    by_cases hlk : m.locked = true
    · rw [hlk] at h'
      simp only [Bool.true_and] at h'
      have hwu : uuidWarning s p =
          "This node seems to have an invalid uuid value : " ++ p := by
        simp [uuidWarning, hma', hlk]
      cases hv : m.value with
      | none =>
        simp [check_uuids_go, has_uuid, mc.attributeQuery, hfn, hma,
              mc.getAttr_lock, get_uuid, mc.getAttr_value, hlk, hv, pyFalsy, hwu]
      | some str =>
        rw [hv] at h'
        by_cases hemp : (str == "") = true
        · simp [check_uuids_go, has_uuid, mc.attributeQuery, hfn, hma,
                mc.getAttr_lock, get_uuid, mc.getAttr_value, hlk, hv, pyFalsy,
                hemp, hwu]
        · have hempf : (str == "") = false := by simpa using hemp
          simp only [pyFalsy, Option.getD_some, hempf, Bool.not_false,
            Bool.true_and] at h'
          have hne32 : str.length ≠ 32 := by simpa using h'
          simp [check_uuids_go, has_uuid, mc.attributeQuery, hfn, hma,
                mc.getAttr_lock, get_uuid, mc.getAttr_value, hlk, hv, pyFalsy,
                hempf, pyLen, hne32, hwu]
    · have hlkf : m.locked = false := by simpa using hlk
      have hwu : uuidWarning s p = "This node has a unlocked uuid : " ++ p := by
        simp [uuidWarning, hma', hlkf]
      simp [check_uuids_go, has_uuid, mc.attributeQuery, hfn, hma,
            mc.getAttr_lock, get_uuid, mc.getAttr_value, hlkf, hwu]

theorem check_uuids_go_iff {s : Scene} (ns : List String)
    (hfn : ∀ p ∈ ns, (findNode s p).isSome) :
    check_uuids_go s ns = .ok (true, []) ↔ ∀ p ∈ ns, nodeUuidOk s p = true := by
  induction ns with
  | nil => simp [check_uuids_go]
  | cons p rest ih =>
    have ihr := ih (fun q hq => hfn q (by simp [hq]))
    cases hok : nodeUuidOk s p with
    | true =>
      rw [check_uuids_go_cons_good rest hok]
      constructor
      · intro h q hq
        rcases List.mem_cons.mp hq with rfl | hq'
        · exact hok
        · exact (ihr.mp h) q hq'
      · intro h
        exact ihr.mpr (fun q hq => h q (by simp [hq]))
    | false =>
      rw [check_uuids_go_cons_bad rest (hfn p (by simp)) hok]
      constructor
      · intro h
        simp at h
      · intro h
        have hc := h p (by simp)
        rw [hok] at hc
        cases hc

theorem check_uuids_go_first_bad {s : Scene} (pre : List String) (p : String)
    (post : List String) (hfn : ∀ q ∈ pre, (findNode s q).isSome)
    (hp : (findNode s p).isSome) (hpre : ∀ q ∈ pre, nodeUuidOk s q = true)
    (hbad : nodeUuidOk s p = false) :
    check_uuids_go s (pre ++ p :: post) = .ok (false, [uuidWarning s p]) := by
  induction pre with
  | nil => simpa using check_uuids_go_cons_bad post hp hbad
  | cons q pre ih =>
    rw [List.cons_append, check_uuids_go_cons_good _ (hpre q (by simp))]
    exact ih (fun r hr => hfn r (by simp [hr])) (fun r hr => hpre r (by simp [hr]))

/-- C1: `check_uuids()` returns true exactly when every trackable node
(every node yielded by `uuid_nodes()`) carries the identity attribute,
write-locked, with a non-empty value exactly 32 characters long; otherwise
it returns false at the first offending node, emitting only that node's
warning (chosen by the first violated check, in order), and the result
does not depend on the nodes after the offender (no later node is
examined). -/
theorem check_uuids_correct (s : Scene) :
    (check_uuids s = .ok (true, []) ↔ ∀ p ∈ uuid_nodes s, nodeUuidOk s p = true) ∧
    (∀ pre p post post2, uuid_nodes s = pre ++ p :: post →
      (∀ q ∈ pre, nodeUuidOk s q = true) → nodeUuidOk s p = false →
      check_uuids s = .ok (false, [uuidWarning s p]) ∧
      check_uuids_go s (pre ++ p :: post2) = .ok (false, [uuidWarning s p])) := by
  constructor
  · exact check_uuids_go_iff (uuid_nodes s)
      (fun p hp => findNode_isSome_of_mem_uuid_nodes hp)
  · intro pre p post post2 hsplit hpre hbad
    have hfn : ∀ q ∈ pre, (findNode s q).isSome := fun q hq =>
      findNode_isSome_of_mem_uuid_nodes (by rw [hsplit]; exact List.mem_append_left _ hq)
    have hp : (findNode s p).isSome :=
      findNode_isSome_of_mem_uuid_nodes (by rw [hsplit]; simp)
    constructor
    · unfold check_uuids
      rw [hsplit]
      exact check_uuids_go_first_bad pre p post hfn hp hpre hbad
    · exact check_uuids_go_first_bad pre p post2 hfn hp hpre hbad

theorem check_uuids_correct_witness :
    check_uuids demoUntagged = .ok (false, [uuidWarning demoUntagged "|group1"]) ∧
    check_uuids_go demoUntagged ([] ++ "|group1" :: []) =
      .ok (false, [uuidWarning demoUntagged "|group1"]) :=
  (check_uuids_correct demoUntagged).2 [] "|group1" [] []
    (by decide) (by simp) (by decide)

theorem check_safety_go_spec {s : Scene} (ns : List String)
    (hfn : ∀ p ∈ ns, (findNode s p).isSome) (safe : Bool) (ws : List String) :
    check_safety_go s ns safe ws =
      .ok (safe && ns.all (fun p => !nodeUnsafeB s p),
        ws ++ listFlat (safetyWarnings s) ns) := by
  induction ns generalizing safe ws with
  | nil => simp [check_safety_go, listFlat]
  | cons p rest ih =>
    obtain ⟨n, hn⟩ := Option.isSome_iff_exists.mp (hfn p (by simp))
    have ihr := ih (fun q hq => hfn q (by simp [hq]))
    have huns : nodeUnsafeB s p = (n.locked || n.referenced) := by
      simp [nodeUnsafeB, hn]
    have hwarn : safetyWarnings s p =
        (if n.locked then
          ["Node locked, set a uuid on it will be impossible : " ++ p] else []) ++
        (if n.referenced then
          ["Node in reference. Set an uuid on it will not make it " ++
            "unique. You should disable reference before or set uuids " ++
            "at the source of the referenced scene : " ++ p] else []) := by
      simp [safetyWarnings, hn]
    simp only [check_safety_go, mc.lockNode_query, mc.referenceQuery, hn]
    rw [ihr, List.all_cons]
    simp only [listFlat, huns, hwarn]
    cases n.locked <;> cases n.referenced <;> cases safe <;>
      simp [List.append_assoc, Bool.and_assoc]

/-- C5: `check_safety()` returns false exactly when some trackable node is
edit-locked at the node level or reference-originated, true otherwise; it
scans every trackable node (no short-circuit) and its warning log holds
one warning per offence of every offending node, in listing order. -/
theorem check_safety_exhaustive (s : Scene) :
    check_safety s =
      .ok ((uuid_nodes s).all (fun p => !nodeUnsafeB s p),
        listFlat (safetyWarnings s) (uuid_nodes s)) := by
  have h := check_safety_go_spec (uuid_nodes s)
    (fun p hp => findNode_isSome_of_mem_uuid_nodes hp) true []
  simpa [check_safety] using h

theorem could_have_uuid_eq_false (s : Scene) (node : String) :
    could_have_uuid s node = false := by
  unfold could_have_uuid
  simp [pyEq]

/-- C3 (code bug): `could_have_uuid` can never return true, because
`mc.ls(node, long=True)` returns a LIST of paths and the membership test
`full_path_node in uuid_nodes()` compares that list for equality against
each yielded string — a cross-type comparison that is always false in
Python.  In particular it returns false for the trackable node `|group1`
even though `|group1` is produced by `uuid_nodes()` (where the claim says
it must return true). -/
theorem could_have_uuid_always_false :
    (∀ (s : Scene) (node : String), could_have_uuid s node = false) ∧
    "|group1" ∈ uuid_nodes demoUntagged ∧
    could_have_uuid demoUntagged "|group1" = false :=
  ⟨could_have_uuid_eq_false, by decide, could_have_uuid_eq_false _ _⟩

/-- C4 (code bug): the live-creation handler never tags any node — for
every creation event it returns the scene unchanged, because the
`could_have_uuid` guard is always false (see the list-vs-string comparison
bug).  On a scene where the freshly created `|group1` is trackable and
untagged, the handler leaves it without an identity attribute, where the
claim (and spec Scenario E) says it acquires a well-formed one. -/
theorem creation_callback_never_tags :
    (∀ (s : Scene) (fresh : String) (mo : MObject),
      set_uuid_on_mobject_callback s fresh mo = .ok s) ∧
    "|group1" ∈ uuid_nodes demoUntagged ∧
    nodeUuidAttr demoUntagged "|group1" = none ∧
    set_uuid_on_mobject_callback demoUntagged demoHex (.dagNode "|group1") =
      .ok demoUntagged := by
  refine ⟨?_, by decide, by decide, rfl⟩
  intro s fresh mo
  cases mo <;> simp [set_uuid_on_mobject_callback, could_have_uuid_eq_false]

/-- C9 (code bug): `_remove_uuid` raises `NameError` on every call — line
89 of the source reads the unbound name `uuid_attr_name` (the module
constant is spelled `_uuid_attr_name`) — so it never unlocks or deletes
anything; shown also at a node that does carry a locked identity
attribute, the very case the claim describes. -/
theorem remove_uuid_name_error :
    (∀ (s : Scene) (node : String), _remove_uuid s node = .error .pyNameError) ∧
    (nodeUuidAttr demoTagged "|group1").isSome = true ∧
    _remove_uuid demoTagged "|group1" = .error .pyNameError := by
  refine ⟨?_, by decide, rfl⟩
  intro s node
  rfl

theorem uuid_map_go_ok {s : Scene} (ns : List String)
    (acc : List (Option String × String))
    (h : ∀ p ∈ ns, (nodeUuidAttr s p).isSome) :
    ∃ m, uuid_map_go s ns acc = .ok m := by
  induction ns generalizing acc with
  | nil => exact ⟨acc, rfl⟩
  | cons p rest ih =>
    obtain ⟨m, hm⟩ := Option.isSome_iff_exists.mp (h p (by simp))
    obtain ⟨n, hfn, hga⟩ := nodeUuidAttr_eq_some_elim hm
    have hg : get_uuid s p = .ok m.value := by
      simp [get_uuid, mc.getAttr_value, hfn, hga]
    simp only [uuid_map_go, hg]
    exact ih _ (fun q hq => h q (List.mem_cons_of_mem _ hq))

theorem uuid_map_go_err {s : Scene} (ns : List String)
    (acc : List (Option String × String))
    (hfn : ∀ p ∈ ns, (findNode s p).isSome)
    (h : ∃ p ∈ ns, nodeUuidAttr s p = none) :
    uuid_map_go s ns acc = .error .attributeNotFound := by
  induction ns generalizing acc with
  | nil => simp at h
  | cons p rest ih =>
    cases hma : nodeUuidAttr s p with
    | none =>
      obtain ⟨n, hfn'⟩ := Option.isSome_iff_exists.mp (hfn p (by simp))
      have hga : getAttrEntry n _uuid_attr_name = none := by
        have h2 := hma
        simp [nodeUuidAttr, hfn'] at h2
        exact h2
      have hg : get_uuid s p = .error .attributeNotFound := by
        simp [get_uuid, mc.getAttr_value, hfn', hga]
      simp [uuid_map_go, hg]
    | some m =>
      obtain ⟨n, hfn', hga⟩ := nodeUuidAttr_eq_some_elim hma
      have hg : get_uuid s p = .ok m.value := by
        simp [get_uuid, mc.getAttr_value, hfn', hga]
      simp only [uuid_map_go, hg]
      apply ih _ (fun q hq => hfn q (List.mem_cons_of_mem _ hq))
      rcases h with ⟨q, hq, hqn⟩
      rcases List.mem_cons.mp hq with rfl | hq'
      · rw [hma] at hqn; cases hqn
      · exact ⟨q, hq', hqn⟩

/-- C10: `uuid_map()` reads the identity of every node yielded by
`uuid_nodes()` unconditionally: it returns a mapping snapshot exactly when
every trackable node carries the identity attribute, and on any scene with
a trackable node lacking it the call fails with the host missing-attribute
error instead of returning a mapping. -/
theorem uuid_map_requires_all_tagged (s : Scene) :
    ((∀ p ∈ uuid_nodes s, (nodeUuidAttr s p).isSome) → ∃ m, uuid_map s = .ok m) ∧
    ((∃ p ∈ uuid_nodes s, nodeUuidAttr s p = none) →
      uuid_map s = .error .attributeNotFound) := by
  constructor
  · intro h
    exact uuid_map_go_ok (uuid_nodes s) [] h
  · intro h
    exact uuid_map_go_err (uuid_nodes s) []
      (fun p hp => findNode_isSome_of_mem_uuid_nodes hp) h

theorem uuid_map_requires_all_tagged_witness :
    uuid_map demoUntagged = .error .attributeNotFound :=
  (uuid_map_requires_all_tagged demoUntagged).2 ⟨"|group1", by decide, by decide⟩

/-- C6: calling `set_uuid` on a node that already carries the identity
attribute fails with the host pre-existing-attribute error.  The failure
happens in `addAttr`, before any write, so no new scene is produced and
the caller keeps the unchanged input scene, in which the stored attribute
is still `m` (second conjunct). -/
theorem set_uuid_pre_existing_fails (s : Scene) (node v : String) (m : MAttr)
    (hm : nodeUuidAttr s node = some m) :
    set_uuid s node v = .error .attributeExists ∧ nodeUuidAttr s node = some m := by
  obtain ⟨n, hfn, hga⟩ := nodeUuidAttr_eq_some_elim hm
  refine ⟨?_, hm⟩
  simp [set_uuid, mc.addAttr, hfn, hga]

theorem set_uuid_pre_existing_fails_witness :
    set_uuid demoTagged "|group1" demoHex = .error .attributeExists ∧
    nodeUuidAttr demoTagged "|group1" = some ⟨some demoHex, true⟩ :=
  set_uuid_pre_existing_fails demoTagged "|group1" demoHex ⟨some demoHex, true⟩
    (by decide)

theorem get_node_go_spec {s : Scene} (x : String) (ns : List String)
    (h : ∀ p ∈ ns, (nodeUuidAttr s p).isSome) :
    get_node_go s x ns = .ok (ns.find? (fun p => nodeUuidValue s p == some x)) := by
  induction ns with
  | nil => rfl
  | cons p rest ih =>
    obtain ⟨m, hm⟩ := Option.isSome_iff_exists.mp (h p (by simp))
    obtain ⟨n, hfn, hga⟩ := nodeUuidAttr_eq_some_elim hm
    have hg : get_uuid s p = .ok m.value := by
      simp [get_uuid, mc.getAttr_value, hfn, hga]
    have hval : nodeUuidValue s p = m.value := by
      simp [nodeUuidValue, hm]
    by_cases hx : (m.value == some x) = true
    · simp only [get_node_go, hg, if_pos hx]
      rw [List.find?_cons_of_pos _ (by simpa [hval] using hx)]
    · simp only [get_node_go, hg, if_neg hx]
      rw [List.find?_cons_of_neg _ (by simpa [hval] using hx)]
      exact ih (fun q hq => h q (List.mem_cons_of_mem _ hq))

/-- C7: when every trackable node is tagged and the identity value `x` is
stored by exactly one trackable node, `get_node` scans the trackable nodes
in listing order and returns the first node whose stored identity equals
`x` (first conjunct), and the round trip holds: reading the identity of
the node `get_node` returns gives back exactly `x`. -/
theorem get_node_roundtrip (s : Scene) (x : String)
    (hall : ∀ p ∈ uuid_nodes s, (nodeUuidAttr s p).isSome)
    (hone : ((uuid_nodes s).filter
      (fun p => nodeUuidValue s p == some x)).length = 1) :
    get_node s x = .ok ((uuid_nodes s).find?
      (fun p => nodeUuidValue s p == some x)) ∧
    ∃ p, get_node s x = .ok (some p) ∧ get_uuid s p = .ok (some x) := by
  have hspec := get_node_go_spec x (uuid_nodes s) hall
  constructor
  · exact hspec
  · have hne : (uuid_nodes s).filter (fun p => nodeUuidValue s p == some x) ≠ [] := by
      intro hc
      rw [hc] at hone
      cases hone
    obtain ⟨q, hq⟩ := List.exists_mem_of_ne_nil _ hne
    have hq' := List.mem_filter.mp hq
    have hsome : ((uuid_nodes s).find?
        (fun p => nodeUuidValue s p == some x)).isSome :=
      List.find?_isSome.mpr ⟨q, hq'.1, hq'.2⟩
    obtain ⟨p0, hp0⟩ := Option.isSome_iff_exists.mp hsome
    have hp0mem := List.mem_of_find?_eq_some hp0
    have hp0pred := List.find?_some hp0
    have hval : nodeUuidValue s p0 = some x := by simpa using hp0pred
    obtain ⟨m, hm⟩ := Option.isSome_iff_exists.mp (hall p0 hp0mem)
    obtain ⟨n, hfn, hga⟩ := nodeUuidAttr_eq_some_elim hm
    have hmv : m.value = some x := by
      have h2 : nodeUuidValue s p0 = m.value := by simp [nodeUuidValue, hm]
      rw [h2] at hval
      exact hval
    refine ⟨p0, ?_, ?_⟩
    · unfold get_node
      rw [hspec, hp0]
    · simp [get_uuid, mc.getAttr_value, hfn, hga, hmv]

theorem get_node_roundtrip_witness :
    get_node demoTagged demoHex =
      .ok ((uuid_nodes demoTagged).find?
        (fun p => nodeUuidValue demoTagged p == some demoHex)) ∧
    ∃ p, get_node demoTagged demoHex = .ok (some p) ∧
      get_uuid demoTagged p = .ok (some demoHex) :=
  get_node_roundtrip demoTagged demoHex (by decide) (by decide)

theorem set_all_uuids_go_attr {gen : Nat → String} :
    ∀ (ns : List String) (i : Nat) (s s' : Scene),
      set_all_uuids_go gen i ns s = .ok s' →
      ∀ p, nodeUuidAttr s' p = nodeUuidAttr s p ∨
        (nodeUuidAttr s p = none ∧
          ∃ j, i ≤ j ∧ nodeUuidAttr s' p = some ⟨some (gen j), true⟩) := by
  intro ns
  induction ns with
  | nil =>
    intro i s s' h p
    simp only [set_all_uuids_go] at h
    injection h with h1
    subst h1
    exact Or.inl rfl
  | cons node rest ih =>
    intro i s s' h p
    simp only [set_all_uuids_go] at h
    split at h
    · cases h
    · split at h
      · exact ih i s s' h p
      · split at h
        · cases h
        · split at h
          · exact ih i s s' h p
          · split at h
            · cases h
            next s2 hset =>
              have hstep := set_uuid_nodeUuidAttr hset
              have hrec := ih (i + 1) s2 s' h p
              by_cases hp : p = node
              · subst hp
                rcases hrec with heq | ⟨hnone2, j, hj, hval⟩
                · right
                  refine ⟨hstep.1, i, le_refl i, ?_⟩
                  rw [heq]
                  exact hstep.2.1
                · rw [hstep.2.1] at hnone2
                  cases hnone2
              · have hs2p : nodeUuidAttr s2 p = nodeUuidAttr s p := hstep.2.2 p hp
                rcases hrec with heq | ⟨hnone2, j, hj, hval⟩
                · exact Or.inl (by rw [heq, hs2p])
                · right
                  refine ⟨by rw [← hs2p]; exact hnone2, j, ?_, hval⟩
                  omega

theorem has_uuid_of_nodeUuidAttr {s : Scene} {p : String} {m : MAttr}
    (hm : nodeUuidAttr s p = some m) : has_uuid s p = .ok true := by
  obtain ⟨n, hfn, hga⟩ := nodeUuidAttr_eq_some_elim hm
  simp [has_uuid, mc.attributeQuery, hfn, hga]

/-- C2: after `set_uuid` succeeds on a node that previously had no identity
attribute, the node carries the attribute (`has_uuid` answers true), the
attribute is write-locked and stores exactly the freshly drawn value — 32
lowercase hex characters, the shape `uuid.uuid4().hex` (Python standard
library, outside this repository) always produces, here a hypothesis on
the modelled draw.  The second conjunct extends this to every node first
tagged during `set_all_uuids()`. -/
theorem set_uuid_wellformed :
    (∀ (s : Scene) (node v : String) (s' : Scene),
      isUuidHex32 v = true → nodeUuidAttr s node = none →
      set_uuid s node v = .ok s' →
      has_uuid s' node = .ok true ∧
      nodeUuidAttr s' node = some ⟨some v, true⟩ ∧ isUuidHex32 v = true) ∧
    (∀ (s : Scene) (gen : Nat → String) (s' : Scene),
      (∀ i, isUuidHex32 (gen i) = true) → set_all_uuids s gen = .ok s' →
      ∀ p, nodeUuidAttr s p = none → nodeUuidAttr s' p ≠ none →
        has_uuid s' p = .ok true ∧
        ∃ v, nodeUuidAttr s' p = some ⟨some v, true⟩ ∧ isUuidHex32 v = true) := by
  constructor
  · intro s node v s' hv _ h
    have hstep := set_uuid_nodeUuidAttr h
    exact ⟨has_uuid_of_nodeUuidAttr hstep.2.1, hstep.2.1, hv⟩
  · intro s gen s' hgen h p hnone hsome
    have hev := set_all_uuids_go_attr (uuid_nodes s) 0 s s' h p
    rcases hev with heq | ⟨_, j, _, hval⟩
    · exact absurd (heq.trans hnone) hsome
    · exact ⟨has_uuid_of_nodeUuidAttr hval, gen j, hval, hgen j⟩

theorem set_uuid_wellformed_witness :
    has_uuid demoTagged "|group1" = .ok true ∧
    nodeUuidAttr demoTagged "|group1" = some ⟨some demoHex, true⟩ ∧
    isUuidHex32 demoHex = true :=
  set_uuid_wellformed.1 demoUntagged "|group1" demoHex demoTagged
    (by decide) (by decide) rfl

theorem set_uuid_nodeUuidValue {s : Scene} {node v : String} {s' : Scene}
    (h : set_uuid s node v = .ok s') :
    nodeUuidValue s node = none ∧ nodeUuidValue s' node = some v ∧
    ∀ q, q ≠ node → nodeUuidValue s' q = nodeUuidValue s q := by
  have hstep := set_uuid_nodeUuidAttr h
  refine ⟨?_, ?_, ?_⟩
  · simp [nodeUuidValue, hstep.1]
  · simp [nodeUuidValue, hstep.2.1]
  · intro q hq
    simp [nodeUuidValue, hstep.2.2 q hq]

theorem set_all_uuids_go_distinct {gen : Nat → String}
    (hinj : Function.Injective gen) :
    ∀ (ns : List String) (i : Nat) (s s' : Scene),
      (∀ p v, nodeUuidValue s p = some v → ∃ j, j < i ∧ v = gen j) →
      (∀ p q vp vq, p ≠ q → nodeUuidValue s p = some vp →
        nodeUuidValue s q = some vq → vp ≠ vq) →
      set_all_uuids_go gen i ns s = .ok s' →
      ∀ p q vp vq, p ≠ q → nodeUuidValue s' p = some vp →
        nodeUuidValue s' q = some vq → vp ≠ vq := by
  intro ns
  induction ns with
  | nil =>
    intro i s s' hbound hdist h
    simp only [set_all_uuids_go] at h
    injection h with h1
    subst h1
    exact hdist
  | cons node rest ih =>
    intro i s s' hbound hdist h
    simp only [set_all_uuids_go] at h
    split at h
    · cases h
    · split at h
      · exact ih i s s' hbound hdist h
      · split at h
        · cases h
        · split at h
          · exact ih i s s' hbound hdist h
          · split at h
            · cases h
            next s2 hset =>
              have hstep := set_uuid_nodeUuidValue hset
              have hbound2 : ∀ p v, nodeUuidValue s2 p = some v →
                  ∃ j, j < i + 1 ∧ v = gen j := by
                intro p v hv
                by_cases hp : p = node
                · subst hp
                  rw [hstep.2.1] at hv
                  injection hv with hv1
                  exact ⟨i, Nat.lt_succ_self i, hv1.symm⟩
                · rw [hstep.2.2 p hp] at hv
                  obtain ⟨j, hj, hje⟩ := hbound p v hv
                  exact ⟨j, Nat.lt_succ_of_lt hj, hje⟩
              have hdist2 : ∀ p q vp vq, p ≠ q → nodeUuidValue s2 p = some vp →
                  nodeUuidValue s2 q = some vq → vp ≠ vq := by
                intro p q vp vq hpq hp hq
                by_cases hpn : p = node
                · subst hpn
                  have hqn : q ≠ p := fun hc => hpq hc.symm
                  rw [hstep.2.1] at hp
                  injection hp with hp1
                  rw [hstep.2.2 q hqn] at hq
                  obtain ⟨j, hj, hje⟩ := hbound q vq hq
                  rw [← hp1, hje]
                  intro hc
                  have hij := hinj hc
                  omega
                · by_cases hqn : q = node
                  · subst hqn
                    rw [hstep.2.1] at hq
                    injection hq with hq1
                    rw [hstep.2.2 p hpn] at hp
                    obtain ⟨j, hj, hje⟩ := hbound p vp hp
                    rw [← hq1, hje]
                    intro hc
                    have hij := hinj hc
                    omega
                  · rw [hstep.2.2 p hpn] at hp
                    rw [hstep.2.2 q hqn] at hq
                    exact hdist p q vp vq hpq hp hq
              exact ih (i + 1) s2 s' hbound2 hdist2 h

/-- C8: after `set_all_uuids()` completes on a scene in which no node yet
stored an identity value, any two distinct tracked nodes that carry
identity values carry different ones.  The `uuid.uuid4().hex` draws are
modelled as an injective stream, matching the treated-as-negligible
collision probability the spec assumes for the minted 128-bit
identifiers. -/
theorem set_all_uuids_distinct (s : Scene) (gen : Nat → String) (s' : Scene)
    (hinj : Function.Injective gen)
    (h0 : ∀ n ∈ s, (getAttrEntry n _uuid_attr_name).bind MAttr.value = none)
    (hok : set_all_uuids s gen = .ok s') :
    ∀ p q vp vq, p ≠ q → p ∈ uuid_nodes s' → q ∈ uuid_nodes s' →
      nodeUuidValue s' p = some vp → nodeUuidValue s' q = some vq → vp ≠ vq := by
  have hval0 : ∀ p v, nodeUuidValue s p = some v → ∃ j, j < 0 ∧ v = gen j := by
    intro p v hv
    exfalso
    unfold nodeUuidValue nodeUuidAttr at hv
    cases hfn : findNode s p with
    | none => rw [hfn] at hv; cases hv
    | some n =>
      rw [hfn] at hv
      simp only [Option.some_bind] at hv
      rw [h0 n (List.mem_of_find?_eq_some hfn)] at hv
      cases hv
  have hdist0 : ∀ p q vp vq, p ≠ q → nodeUuidValue s p = some vp →
      nodeUuidValue s q = some vq → vp ≠ vq := by
    intro p q vp vq hpq hp hq
    obtain ⟨j, hj, _⟩ := hval0 p vp hp
    omega
  intro p q vp vq hpq _ _ hp hq
  exact set_all_uuids_go_distinct hinj (uuid_nodes s) 0 s s' hval0 hdist0 hok
    p q vp vq hpq hp hq

theorem demoGen_injective : Function.Injective demoGen := by
  intro a b hab
  have h1 : (demoGen a).length = (demoGen b).length := congrArg String.length hab
  have h2 : (demoGen a).length = a + 1 := by
    show (List.replicate (a + 1) 'a').length = a + 1
    simp
  have h3 : (demoGen b).length = b + 1 := by
    show (List.replicate (b + 1) 'a').length = b + 1
    simp
  rw [h2, h3] at h1
  omega

theorem set_all_uuids_distinct_witness : ("a" : String) ≠ "aa" :=
  set_all_uuids_distinct demoTwo demoGen demoTwoTagged demoGen_injective
    (by decide) rfl "|group1" "|group2" "a" "aa" (by decide) (by decide)
    (by decide) (by decide) (by decide)
